import Mathlib

/-!
Shallow embedding of the dccjsonvalidation repository: the Python value
universe handled by its type-coercion engine, the fragment of a JSON schema
document that `schema_tools.py` probes, the two coercion passes
(`convert_from_other`, `convert_string_to_other`), the schema flattener
(`get_definitions_values`), the error renderer (`validation_errors`) and the
record-numbering loop of `validate_using_schema.main`, together with theorems
checking the specification's claims against these definitions.

Modelling conventions:
* Python dicts appearing as data rows or as the schema's `properties` map are
  insertion-ordered association lists with distinct keys.
* Machine-independent Python ints are `Int`; Python floats are only ever
  created by `convert_string_to_numeric` from a decimal literal and are never
  computed with, so a float is modelled by the literal it was parsed from.
* A raised Python exception (`KeyError`) is an `Except.error` carrying the
  offending key.
* String methods (`upper`, `isnumeric`, `isdigit`) are modelled on their ASCII
  fragment, the one exercised by this repository's schemas and data.
-/

namespace DccJson

/-- Python values as they occur in data records. `obj` stands for any other
Python value (lists, dicts, None): the modelled code only asks isinstance
questions about such values, all of which are false. -/
inductive PyVal where
  | str (s : String)
  | bool (b : Bool)
  | int (n : Int)
  | float (lit : String)
  | obj
  deriving DecidableEq

/-- Python isinstance(v, str). -/
def PyVal.isStr : PyVal → Bool
  | .str _ => true
  | _ => false

/-- Python str.upper() on the ASCII fragment. -/
def py_upper (s : String) : String := ⟨s.data.map Char.toUpper⟩

/-- Python str.isnumeric() on the ASCII fragment: a nonempty string made of
decimal digits. -/
def str_isnumeric (s : String) : Bool := !s.data.isEmpty && s.data.all Char.isDigit

/-- Python s.replace(".", "", 1): drop the first occurrence of a dot. -/
def remove_first_dot : List Char → List Char
  | [] => []
  | c :: cs => if c = '.' then cs else c :: remove_first_dot cs

/-- Python int(s) for a string of decimal digits. -/
def parse_digits (s : String) : Nat := s.data.foldl (fun n c => 10 * n + (c.toNat - 48)) 0

/-- schema_tools.convert_bool_to_string (lines 13-37): a Python Boolean becomes
its lower-case string form via the dict {True: "true", False: "false"}; any
other value is returned unchanged. -/
def convert_bool_to_string : PyVal → PyVal
  | .bool b => .str (if b then "true" else "false")
  | v => v

/-- schema_tools.convert_numeric_to_string (lines 40-66): str() is applied to
ints and floats (the isinstance check excludes bools); any other value is
returned unchanged. Python str() on the modelled float is the decimal literal
it was parsed from. -/
def convert_numeric_to_string : PyVal → PyVal
  | .int n => .str (toString n)
  | .float lit => .str lit
  | v => v

/-- schema_tools.convert_string_to_bool (lines 70-88): a string whose upper
case form is TRUE or FALSE becomes the corresponding Boolean via the dict
{TRUE: True, FALSE: False}; any other value is returned unchanged. -/
def convert_string_to_bool : PyVal → PyVal
  | .str s =>
      if py_upper s = "TRUE" then .bool true
      else if py_upper s = "FALSE" then .bool false
      else .str s
  | v => v

/-- schema_tools.convert_string_to_numeric (lines 91-111): an all-digits
string becomes an int; a string that is all digits after removing the first
dot becomes a float; any other string is returned unchanged. The source calls
input_value.isnumeric() without an isinstance guard, so a non-string argument
would raise AttributeError; its only call sites pass strings and the
fallthrough branch below is never exercised by the theorems in this file. -/
def convert_string_to_numeric : PyVal → PyVal
  | .str s =>
      if str_isnumeric s then .int (parse_digits s)
      else if str_isnumeric ⟨remove_first_dot s.data⟩ then .float s
      else .str s
  | v => v

/-- One entry of an anyOf/enum value list: the dict keys the source probes
(`const`, `type`, `description`, `source`), each possibly absent. -/
structure VEntry where
  const : Option PyVal := none
  type : Option String := none
  description : Option String := none
  source : Option String := none
  deriving DecidableEq

/-- One property node of a dereferenced schema: the dict keys the source
probes, each possibly absent. `hasOtherKeys` records whether the underlying
Python dict carries any key beyond the modelled ones; it matters only for the
dict truthiness test in get_definitions_values. -/
structure PropSchema where
  type : Option String := none
  description : Option String := none
  maximumSize : Option Int := none
  pattern : Option String := none
  anyOf : Option (List VEntry) := none
  enum : Option (List VEntry) := none
  hasOtherKeys : Bool := false
  deriving DecidableEq

/-- A dereferenced schema document: its `properties` dict (insertion-ordered,
distinct keys) and its optional top-level `required` array. -/
structure JsonSchema where
  properties : List (String × PropSchema)
  required : Option (List String) := none
  deriving DecidableEq

/-- Python `rec_key in val_schema["properties"]` / the dict lookup itself. -/
def props_lookup (js : JsonSchema) (k : String) : Option PropSchema :=
  js.properties.lookup k

/-- VALUES_LIST_KEYWORDS = ["anyOf", "enum"] (schema_tools.py line 10): the
membership test `any(value_key in schema_val for value_key in
VALUES_LIST_KEYWORDS)`. -/
def hasValuesListKeyword (sv : PropSchema) : Bool := sv.anyOf.isSome || sv.enum.isSome

/-- vkey selection, `list(set(VALUES_LIST_KEYWORDS).intersection(schema_val))[0]`
(schema_tools.py lines 157, 211, 281, 352). It is only reached when at least
one of the two keywords is present. When both are present the source's Python
set iteration order makes the pick unspecified; this model takes anyOf, and
every theorem whose content depends on the pick assumes exactly one keyword is
declared. -/
def selectValueList (sv : PropSchema) : List VEntry :=
  match sv.anyOf with
  | some es => es
  | none => sv.enum.getD []

/-- Python `("const" in schema_values) and isinstance(schema_values["const"], str)`
(schema_tools.py line 159). -/
def const_is_string (e : VEntry) : Bool :=
  match e.const with
  | some c => c.isStr
  | none => false

/-- Python `("type" in schema_values) and (schema_values["type"] in type_list)`
(schema_tools.py line 213). -/
def type_in_list (type_list : List String) (e : VEntry) : Bool :=
  match e.type with
  | some t => type_list.contains t
  | none => false

/-- The inner for-loop of convert_from_other / convert_string_to_other
(schema_tools.py lines 158-163 and 212-217): each non-qualifying entry assigns
the original value to converted_row[rec_key], a qualifying entry assigns
func_to_run(value) and breaks, and an empty list leaves the key unassigned
(`none`). -/
def coerce_loop (qual : VEntry → Bool) (func : PyVal → PyVal) (v : PyVal) :
    List VEntry → Option PyVal
  | [] => none
  | e :: es =>
      if qual e then some (func v)
      else some ((coerce_loop qual func v es).getD v)

/-- The per-key body of convert_from_other once `schema_val` has been fetched
(schema_tools.py lines 140-163): the pass-through condition is transcribed
disjunct for disjunct (its first disjunct is dead, since fetching `schema_val`
already raised KeyError when the key is absent). A `none` result means the
loop never assigned converted_row[rec_key]. -/
def convert_value_from_other (js : JsonSchema) (func : PyVal → PyVal)
    (rec_key : String) (schema_val : PropSchema) (v : PyVal) : Option PyVal :=
  if !(props_lookup js rec_key).isSome || v.isStr
      || (!v.isStr && !hasValuesListKeyword schema_val) then
    some v
  else
    coerce_loop const_is_string func v (selectValueList schema_val)

/-- schema_tools.convert_from_other (lines 114-165). The first statement of
the loop body, `schema_val = val_schema["properties"][rec_key]`, raises
KeyError when the record key is absent from the schema's properties — before
the pass-through condition that was meant to handle that case is evaluated. -/
def convert_from_other (data_row : List (String × PyVal)) (val_schema : JsonSchema)
    (func_to_run : PyVal → PyVal) : Except String (List (String × PyVal)) :=
  match data_row with
  | [] => .ok []
  | (rec_key, v) :: rest =>
      match props_lookup val_schema rec_key with
      | none => .error rec_key
      | some schema_val =>
          match convert_from_other rest val_schema func_to_run with
          | .error e => .error e
          | .ok tail =>
              .ok (match convert_value_from_other val_schema func_to_run rec_key schema_val v with
                   | some x => (rec_key, x) :: tail
                   | none => tail)

/-- The per-key body of convert_string_to_other once `schema_val` has been
fetched (schema_tools.py lines 198-217), transcribed like
convert_value_from_other but with the string test negated and the qualifying
test on the entry's declared type. -/
def convert_value_string_to_other (js : JsonSchema) (type_list : List String)
    (func : PyVal → PyVal) (rec_key : String) (schema_val : PropSchema) (v : PyVal) :
    Option PyVal :=
  if !(props_lookup js rec_key).isSome || !v.isStr
      || (v.isStr && !hasValuesListKeyword schema_val) then
    some v
  else
    coerce_loop (type_in_list type_list) func v (selectValueList schema_val)

/-- schema_tools.convert_string_to_other (lines 168-219). Like
convert_from_other, `schema_val = val_schema["properties"][rec_key]` raises
KeyError for a record key absent from the schema's properties. -/
def convert_string_to_other (data_row : List (String × PyVal)) (val_schema : JsonSchema)
    (type_list : List String) (func_to_run : PyVal → PyVal) :
    Except String (List (String × PyVal)) :=
  match data_row with
  | [] => .ok []
  | (rec_key, v) :: rest =>
      match props_lookup val_schema rec_key with
      | none => .error rec_key
      | some schema_val =>
          match convert_string_to_other rest val_schema type_list func_to_run with
          | .error e => .error e
          | .ok tail =>
              .ok (match convert_value_string_to_other val_schema type_list func_to_run
                         rec_key schema_val v with
                   | some x => (rec_key, x) :: tail
                   | none => tail)

/-- One row of the definitions dataframe built by get_definitions_values; a
field left out of the appended dict becomes NaN in pandas, modelled as
`none`. -/
structure DefRow where
  key : String
  type : Option String := none
  description : Option String := none
  required : Bool
  maximumSize : Option Int := none
  deriving DecidableEq

/-- One row of the values dataframe built by get_definitions_values. -/
structure ValueRow where
  key : String
  value : Option PyVal := none
  valueDescription : Option String := none
  source : Option String := none
  deriving DecidableEq

/-- Python truthiness of a property node (`if schema_values:` at
schema_tools.py line 257): a dict is truthy exactly when it is nonempty. -/
def PropSchema.isTruthy (sv : PropSchema) : Bool :=
  sv.type.isSome || sv.description.isSome || sv.maximumSize.isSome || sv.pattern.isSome ||
  sv.anyOf.isSome || sv.enum.isSome || sv.hasOtherKeys

/-- The required flag of a definition row (schema_tools.py lines 267-270):
`("required" in json_schema) and (schema_key in json_schema["required"])`. -/
def required_flag (js : JsonSchema) (k : String) : Bool :=
  match js.required with
  | some req => req.contains k
  | none => false

/-- The definitions dict appended for one property (schema_tools.py lines
253-272). -/
def def_row_for (js : JsonSchema) (k : String) (sv : PropSchema) : DefRow :=
  { key := k, type := sv.type, description := sv.description,
    required := required_flag js k, maximumSize := sv.maximumSize }

/-- The values rows appended for one property (schema_tools.py lines 274-295):
a declared pattern yields exactly one row holding the pattern string; else a
declared value list yields one row per entry, copying const, description and
source when present; else nothing. -/
def value_rows_for (k : String) (sv : PropSchema) : List ValueRow :=
  match sv.pattern with
  | some pat => [{ key := k, value := some (.str pat) }]
  | none =>
      if hasValuesListKeyword sv then
        (selectValueList sv).map (fun e =>
          { key := k, value := e.const, valueDescription := e.description,
            source := e.source })
      else []

/-- The property loop of get_definitions_values over a suffix of the
properties list. -/
def gdv_aux (js : JsonSchema) : List (String × PropSchema) → List DefRow × List ValueRow
  | [] => ([], [])
  | (k, sv) :: rest =>
      let tail := gdv_aux js rest
      if sv.isTruthy then
        (def_row_for js k sv :: tail.1, value_rows_for k sv ++ tail.2)
      else tail

/-- schema_tools.get_definitions_values (lines 222-297): one definitions row
and zero or more values rows per Python-truthy property node, in properties
order. -/
def get_definitions_values (js : JsonSchema) : List DefRow × List ValueRow :=
  gdv_aux js js.properties

/-- One structured error from the external jsonschema validator: its
relative_schema_path deque and its message. -/
structure ValError where
  relative_schema_path : List String
  message : String
  deriving DecidableEq

/-- One iteration of the error loop of validation_errors (schema_tools.py
lines 469-473): `if error.relative_schema_path[0] == "properties":` renders
the property name `error.relative_schema_path[1]` before the message. An
empty path or the exact path ["properties"] would raise IndexError in the
source; the jsonschema validator never produces those shapes (every error
names the violated keyword, and a property-level path carries the property
name after "properties"), so the `getD` defaults below are unreachable and no
theorem in this file relies on them. -/
def render_validation_error (prepend_string : String) (e : ValError) : String :=
  if e.relative_schema_path.head? = some "properties" then
    prepend_string ++ (e.relative_schema_path[1]?.getD "") ++ ": " ++ e.message ++ "\n"
  else prepend_string ++ e.message ++ "\n"

/-- schema_tools.validation_errors (lines 436-475): the kwargs values are
concatenated into prepend_string, then each error appends one rendered line to
error_string. -/
def validation_errors (schema_errors : List ValError) (kwargs : List String) : String :=
  let prepend_string := kwargs.foldl (fun acc s => acc ++ s) ""
  schema_errors.foldl (fun error_string e =>
    error_string ++ render_validation_error prepend_string e) ""

/-- validate_using_schema.py line 51: the first record of a JSON input is
numbered 1. -/
def first_record_json : Nat := 1

/-- validate_using_schema.py line 69: the first data row of a csv input is
numbered 2, row 1 being the header. -/
def first_record_csv : Nat := 2

/-- validate_using_schema.py line 47: `data_dict_list.append(json.load(...))`
appends the parsed JSON document as a single element, so the whole document —
even when it is an array of records — becomes one record. -/
def json_data_dict_list {α : Type} (doc : α) : List α := [doc]

/-- The record loop of validate_using_schema.main (lines 71-91), abstracted
over the per-record error lists the external validator yields: each record is
labelled with first_record plus its enumeration index, and its rendered errors
are appended to the accumulated report when nonempty. -/
def main_loop (first_record : Nat) : Nat → List (List ValError) → String → String
  | _, [], acc => acc
  | line_number, schema_errors :: rest, acc =>
      let record_number := "Record " ++ toString (first_record + line_number) ++ ": "
      let row_error := validation_errors schema_errors [record_number]
      main_loop first_record (line_number + 1) rest
        (if row_error ≠ "" then acc ++ row_error else acc)

/-- The accumulated validation report printed by validate_using_schema.main. -/
def main_report (first_record : Nat) (record_errors : List (List ValError)) : String :=
  main_loop first_record 0 record_errors ""

/-- Concatenation of a list of strings, in order. -/
def str_concat : List String → String
  | [] => ""
  | s :: ss => s ++ str_concat ss

/-- The record-label-free core of a rendered error line, used to state what
each report line looks like. -/
def error_core (e : ValError) : String :=
  if e.relative_schema_path.head? = some "properties" then
    (e.relative_schema_path[1]?.getD "") ++ ": " ++ e.message
  else e.message

/-- Every line the report should contain, according to the spec's description
of record numbering: record i contributes one line per error, labelled
"Record (first_record + i): ". -/
def labeled_lines (first_record : Nat) (record_errors : List (List ValError)) :
    List String :=
  (List.enum record_errors).flatMap (fun p =>
    p.2.map (fun e => "Record " ++ toString (first_record + p.1) ++ ": " ++ error_core e))

/-! ### Concrete schemas and rows used for evaluations and witnesses -/

/-- A property node declaring only a string type. -/
def sampleProp : PropSchema := { type := some "string" }

/-- A one-property schema: `sampleId` of type string. -/
def sampleSchema : JsonSchema := { properties := [("sampleId", sampleProp)] }

/-- A value list holding a string constant and a Boolean constant, neither
entry declaring a `type` key. -/
def statusConstEntries : List VEntry :=
  [{ const := some (.str "Unknown") }, { const := some (.bool true) }]

/-- A property node whose anyOf is statusConstEntries. -/
def statusConstProp : PropSchema := { anyOf := some statusConstEntries }

/-- A one-property schema: `status` with statusConstProp. -/
def statusConstSchema : JsonSchema := { properties := [("status", statusConstProp)] }

/-- Like statusConstEntries, but the Boolean alternative also declares its
type, as a schema must for the widening pass to fire. -/
def statusTypedEntries : List VEntry :=
  [{ const := some (.str "Unknown") }, { const := some (.bool true), type := some "boolean" }]

/-- A property node whose anyOf is statusTypedEntries. -/
def statusTypedProp : PropSchema := { anyOf := some statusTypedEntries }

/-- A one-property schema: `status` with statusTypedProp. -/
def statusTypedSchema : JsonSchema := { properties := [("status", statusTypedProp)] }

/-- A value list offering an integer-typed alternative next to a string
constant. -/
def countEntries : List VEntry := [{ type := some "integer" }, { const := some (.str "NA") }]

/-- A property node whose anyOf is countEntries. -/
def countProp : PropSchema := { anyOf := some countEntries }

/-- A one-property schema: `count` with countProp. -/
def countSchema : JsonSchema := { properties := [("count", countProp)] }

/-- A property node declaring an empty enum list. -/
def emptyListProp : PropSchema := { enum := some ([] : List VEntry) }

/-- A one-property schema: `tag` with an empty value list. -/
def emptyListSchema : JsonSchema := { properties := [("tag", emptyListProp)] }

/-- A one-property schema whose property node is the empty Python dict. -/
def emptyNodeSchema : JsonSchema := { properties := [("a", ({} : PropSchema))] }

/-! ### Helper lemmas: association-list lookups -/

theorem lookup_eq_none_of_not_mem_keys {β : Type} {k : String} {l : List (String × β)}
    (h : k ∉ l.map Prod.fst) : l.lookup k = none := by
  induction l with
  | nil => rfl
  | cons kv rest ih =>
      obtain ⟨k1, v1⟩ := kv
      simp only [List.map_cons, List.mem_cons, not_or] at h
      have hbeq : (k == k1) = false := beq_eq_false_iff_ne.mpr h.1
      simp only [List.lookup, hbeq]
      exact ih h.2

theorem mem_keys_of_lookup_eq_some {β : Type} {k : String} {v : β} {l : List (String × β)}
    (h : l.lookup k = some v) : k ∈ l.map Prod.fst := by
  induction l with
  | nil => simp [List.lookup] at h
  | cons kv rest ih =>
      obtain ⟨k1, v1⟩ := kv
      by_cases hk : k = k1
      · simp [hk]
      · have hbeq : (k == k1) = false := beq_eq_false_iff_ne.mpr hk
        simp only [List.lookup, hbeq] at h
        simp [ih h]

theorem mem_of_lookup_eq_some {β : Type} {k : String} {v : β} {l : List (String × β)}
    (h : l.lookup k = some v) : (k, v) ∈ l := by
  induction l with
  | nil => simp [List.lookup] at h
  | cons kv rest ih =>
      obtain ⟨k1, v1⟩ := kv
      by_cases hk : k = k1
      · subst hk
        simp only [List.lookup, beq_self_eq_true] at h
        cases h
        exact List.mem_cons_self _ _
      · have hbeq : (k == k1) = false := beq_eq_false_iff_ne.mpr hk
        simp only [List.lookup, hbeq] at h
        exact List.mem_cons_of_mem _ (ih h)

theorem keys_sublist_filterMap (g : String × PyVal → Option (String × PyVal))
    (hg : ∀ kv r, g kv = some r → r.1 = kv.1) (row : List (String × PyVal)) :
    ((row.filterMap g).map Prod.fst).Sublist (row.map Prod.fst) := by
  induction row with
  | nil => simp
  | cons kv rest ih =>
      rw [List.filterMap_cons]
      cases hgv : g kv with
      | none => exact (List.map_cons _ _ _ ▸ ih.cons kv.1)
      | some r =>
          simp only [List.map_cons]
          rw [hg kv r hgv]
          exact ih.cons₂ kv.1

theorem lookup_filterMap (g : String × PyVal → Option (String × PyVal))
    (hg : ∀ kv r, g kv = some r → r.1 = kv.1) {row : List (String × PyVal)}
    {k : String} {v : PyVal} (hnodup : (row.map Prod.fst).Nodup)
    (hlk : row.lookup k = some v) :
    (row.filterMap g).lookup k = (g (k, v)).map Prod.snd := by
  induction row with
  | nil => simp [List.lookup] at hlk
  | cons kv rest ih =>
      obtain ⟨k', v'⟩ := kv
      simp only [List.map_cons, List.nodup_cons] at hnodup
      rw [List.filterMap_cons]
      by_cases hk : k = k'
      · subst hk
        simp only [List.lookup, beq_self_eq_true] at hlk
        cases hlk
        cases hgv : g (k, v) with
        | none =>
            have hnot : k ∉ (rest.filterMap g).map Prod.fst := fun hmem =>
              hnodup.1 ((keys_sublist_filterMap g hg rest).mem hmem)
            simp [lookup_eq_none_of_not_mem_keys hnot, hgv]
        | some r =>
            obtain ⟨rk, rv⟩ := r
            have hr : rk = k := hg _ _ hgv
            simp [List.lookup, hr, hgv]
      · have hbeq : (k == k') = false := beq_eq_false_iff_ne.mpr hk
        simp only [List.lookup, hbeq] at hlk
        cases hgv : g (k', v') with
        | none => exact ih hnodup.2 hlk
        | some r =>
            obtain ⟨rk, rv⟩ := r
            have hr : rk = k' := hg _ _ hgv
            have hbeq2 : (k == rk) = false :=
              beq_eq_false_iff_ne.mpr (fun he => hk (he.trans hr))
            simp only [List.lookup, hbeq2]
            exact ih hnodup.2 hlk

/-! ### Helper lemmas: the coercion loop and the row traversals -/

theorem coerce_loop_eq (qual : VEntry → Bool) (func : PyVal → PyVal) (v : PyVal) :
    ∀ es : List VEntry,
      coerce_loop qual func v es =
        if es.isEmpty then none else some (if es.any qual then func v else v) := by
  intro es
  induction es with
  | nil => rfl
  | cons e rest ih =>
      show (if qual e then some (func v)
            else some ((coerce_loop qual func v rest).getD v)) = _
      cases hq : qual e with
      | true => simp [hq]
      | false =>
          rw [if_neg (by simp [hq]), ih]
          cases rest with
          | nil => simp [hq]
          | cons e2 rest2 => simp [hq]

/-- The value-and-key outcome of one key of convert_from_other: `none` when the
key would contribute nothing to converted_row. -/
def row_entry_from_other (js : JsonSchema) (func : PyVal → PyVal)
    (kv : String × PyVal) : Option (String × PyVal) :=
  match props_lookup js kv.1 with
  | none => none
  | some sv => (convert_value_from_other js func kv.1 sv kv.2).map (fun x => (kv.1, x))

theorem row_entry_from_other_key (js : JsonSchema) (func : PyVal → PyVal) :
    ∀ kv r, row_entry_from_other js func kv = some r → r.1 = kv.1 := by
  intro kv r h
  unfold row_entry_from_other at h
  revert h
  cases props_lookup js kv.1 with
  | none => intro h; cases h
  | some sv =>
      intro h
      obtain ⟨x, hx, hr⟩ := Option.map_eq_some'.mp h
      rw [← hr]

theorem convert_from_other_ok (js : JsonSchema) (func : PyVal → PyVal)
    (row : List (String × PyVal))
    (hall : ∀ kv ∈ row, (props_lookup js kv.1).isSome) :
    convert_from_other row js func = .ok (row.filterMap (row_entry_from_other js func)) := by
  induction row with
  | nil => rfl
  | cons kv rest ih =>
      obtain ⟨k, v⟩ := kv
      have hk := hall (k, v) (List.mem_cons_self _ _)
      obtain ⟨sv, hsv⟩ := Option.isSome_iff_exists.mp hk
      have htail := ih (fun kv hm => hall kv (List.mem_cons_of_mem _ hm))
      rw [List.filterMap_cons]
      simp only [convert_from_other, hsv, htail]
      unfold row_entry_from_other
      simp only [hsv]
      cases hc : convert_value_from_other js func k sv v with
      | none => simp
      | some x => simp

/-- The value-and-key outcome of one key of convert_string_to_other. -/
def row_entry_string_to_other (js : JsonSchema) (type_list : List String)
    (func : PyVal → PyVal) (kv : String × PyVal) : Option (String × PyVal) :=
  match props_lookup js kv.1 with
  | none => none
  | some sv =>
      (convert_value_string_to_other js type_list func kv.1 sv kv.2).map (fun x => (kv.1, x))

theorem row_entry_string_to_other_key (js : JsonSchema) (type_list : List String)
    (func : PyVal → PyVal) :
    ∀ kv r, row_entry_string_to_other js type_list func kv = some r → r.1 = kv.1 := by
  intro kv r h
  unfold row_entry_string_to_other at h
  revert h
  cases props_lookup js kv.1 with
  | none => intro h; cases h
  | some sv =>
      intro h
      obtain ⟨x, hx, hr⟩ := Option.map_eq_some'.mp h
      rw [← hr]

theorem convert_string_to_other_ok (js : JsonSchema) (type_list : List String)
    (func : PyVal → PyVal) (row : List (String × PyVal))
    (hall : ∀ kv ∈ row, (props_lookup js kv.1).isSome) :
    convert_string_to_other row js type_list func =
      .ok (row.filterMap (row_entry_string_to_other js type_list func)) := by
  induction row with
  | nil => rfl
  | cons kv rest ih =>
      obtain ⟨k, v⟩ := kv
      have hk := hall (k, v) (List.mem_cons_self _ _)
      obtain ⟨sv, hsv⟩ := Option.isSome_iff_exists.mp hk
      have htail := ih (fun kv hm => hall kv (List.mem_cons_of_mem _ hm))
      rw [List.filterMap_cons]
      simp only [convert_string_to_other, hsv, htail]
      unfold row_entry_string_to_other
      simp only [hsv]
      cases hc : convert_value_string_to_other js type_list func k sv v with
      | none => simp
      | some x => simp

theorem convert_from_other_lookup (js : JsonSchema) (func : PyVal → PyVal)
    {row : List (String × PyVal)} {k : String} {v : PyVal} {sv : PropSchema}
    (hall : ∀ kv ∈ row, (props_lookup js kv.1).isSome)
    (hnodup : (row.map Prod.fst).Nodup) (hlk : row.lookup k = some v)
    (hsv : props_lookup js k = some sv) :
    ∃ out, convert_from_other row js func = .ok out ∧
      out.lookup k = convert_value_from_other js func k sv v ∧
      (out.map Prod.fst).Sublist (row.map Prod.fst) := by
  refine ⟨row.filterMap (row_entry_from_other js func),
    convert_from_other_ok js func row hall, ?_,
    keys_sublist_filterMap _ (row_entry_from_other_key js func) row⟩
  rw [lookup_filterMap _ (row_entry_from_other_key js func) hnodup hlk]
  unfold row_entry_from_other
  simp only [hsv]
  cases convert_value_from_other js func k sv v <;> rfl

theorem convert_string_to_other_lookup (js : JsonSchema) (type_list : List String)
    (func : PyVal → PyVal)
    {row : List (String × PyVal)} {k : String} {v : PyVal} {sv : PropSchema}
    (hall : ∀ kv ∈ row, (props_lookup js kv.1).isSome)
    (hnodup : (row.map Prod.fst).Nodup) (hlk : row.lookup k = some v)
    (hsv : props_lookup js k = some sv) :
    ∃ out, convert_string_to_other row js type_list func = .ok out ∧
      out.lookup k = convert_value_string_to_other js type_list func k sv v ∧
      (out.map Prod.fst).Sublist (row.map Prod.fst) := by
  refine ⟨row.filterMap (row_entry_string_to_other js type_list func),
    convert_string_to_other_ok js type_list func row hall, ?_,
    keys_sublist_filterMap _ (row_entry_string_to_other_key js type_list func) row⟩
  rw [lookup_filterMap _ (row_entry_string_to_other_key js type_list func) hnodup hlk]
  unfold row_entry_string_to_other
  simp only [hsv]
  cases convert_value_string_to_other js type_list func k sv v <;> rfl

/-! ### Helper lemmas: string concatenation and the report loops -/

theorem str_concat_append (l1 l2 : List String) :
    str_concat (l1 ++ l2) = str_concat l1 ++ str_concat l2 := by
  induction l1 with
  | nil => simp [str_concat, String.empty_append]
  | cons s ss ih => simp [str_concat, ih, String.append_assoc]

theorem str_concat_flatMap {α : Type} (f : α → List String) (l : List α) :
    str_concat (l.flatMap f) = str_concat (l.map (fun x => str_concat (f x))) := by
  induction l with
  | nil => rfl
  | cons x xs ih => simp [List.flatMap_cons, str_concat_append, str_concat, ih]

theorem foldl_append_eq {α : Type} (r : α → String) (es : List α) :
    ∀ acc, es.foldl (fun a e => a ++ r e) acc = acc ++ str_concat (es.map r) := by
  induction es with
  | nil => intro acc; simp [str_concat, String.append_empty]
  | cons e rest ih => intro acc; simp [str_concat, ih, String.append_assoc]

theorem str_concat_eq_empty_iff (l : List String) :
    str_concat l = "" ↔ ∀ s ∈ l, s = "" := by
  induction l with
  | nil => simp [str_concat]
  | cons s ss ih =>
      simp only [str_concat, List.mem_cons]
      constructor
      · intro h
        have hd := congrArg String.data h
        rw [String.data_append] at hd
        rcases List.append_eq_nil.mp hd with ⟨h1, h2⟩
        have hs : s = "" := String.ext h1
        have hss := ih.mp (String.ext h2)
        intro x hx
        rcases hx with hx | hx
        · exact hx ▸ hs
        · exact hss x hx
      · intro h
        have hs := h s (Or.inl rfl)
        have hss : str_concat ss = "" := ih.mpr (fun x hx => h x (Or.inr hx))
        rw [hs, hss]
        rfl

theorem append_newline_ne_empty (s : String) : s ++ "\n" ≠ "" := by
  intro h
  have hd := congrArg String.data h
  rw [String.data_append] at hd
  have hnl : ("\n" : String).data = ['\n'] := rfl
  rw [hnl] at hd
  simp at hd

theorem render_eq_core (p : String) (e : ValError) :
    render_validation_error p e = p ++ error_core e ++ "\n" := by
  unfold render_validation_error error_core
  by_cases h : e.relative_schema_path.head? = some "properties" <;>
    simp [h, String.append_assoc]

theorem validation_errors_eq (es : List ValError) (p : String) :
    validation_errors es [p] = str_concat (es.map (render_validation_error p)) := by
  have h := foldl_append_eq (render_validation_error p) es ""
  simpa [validation_errors, String.empty_append] using h

theorem validation_errors_empty_iff (es : List ValError) (p : String) :
    validation_errors es [p] = "" ↔ es = [] := by
  rw [validation_errors_eq, str_concat_eq_empty_iff]
  constructor
  · intro h
    cases es with
    | nil => rfl
    | cons e rest =>
        have he := h (render_validation_error p e) (by simp)
        rw [render_eq_core] at he
        exact absurd he (append_newline_ne_empty _)
  · intro h
    subst h
    simp

theorem main_loop_eq (first : Nat) (errs : List (List ValError)) :
    ∀ i acc, main_loop first i errs acc =
      acc ++ str_concat ((List.enumFrom i errs).map
        (fun q => validation_errors q.2 ["Record " ++ toString (first + q.1) ++ ": "])) := by
  induction errs with
  | nil => intro i acc; simp [main_loop, List.enumFrom, str_concat, String.append_empty]
  | cons es rest ih =>
      intro i acc
      have hif : ∀ (a r : String), (if r ≠ "" then a ++ r else a) = a ++ r := by
        intro a r
        by_cases h : r = "" <;> simp [h, String.append_empty]
      simp only [main_loop]
      rw [hif, ih]
      simp [List.enumFrom, str_concat, String.append_assoc]

theorem main_report_eq (first : Nat) (errs : List (List ValError)) :
    main_report first errs = str_concat ((List.enumFrom 0 errs).map
      (fun q => validation_errors q.2 ["Record " ++ toString (first + q.1) ++ ": "])) := by
  have h := main_loop_eq first errs 0 ""
  simpa [main_report, String.empty_append] using h

theorem enumFrom_forall_snd {α : Type} (P : α → Prop) :
    ∀ (n : Nat) (l : List α), (∀ p ∈ List.enumFrom n l, P p.2) ↔ (∀ x ∈ l, P x) := by
  intro n l
  induction l generalizing n with
  | nil => simp [List.enumFrom]
  | cons x xs ih =>
      rw [List.enumFrom_cons]
      constructor
      · intro h y hy
        rcases List.mem_cons.mp hy with rfl | hy
        · exact h (n, y) (List.mem_cons_self _ _)
        · exact (ih (n + 1)).mp (fun p hp => h p (List.mem_cons_of_mem _ hp)) y hy
      · intro h p hp
        rcases List.mem_cons.mp hp with rfl | hp
        · exact h x (List.mem_cons_self _ _)
        · exact (ih (n + 1)).mpr (fun y hy => h y (List.mem_cons_of_mem _ hy)) p hp

theorem main_report_empty_iff (first : Nat) (errs : List (List ValError)) :
    main_report first errs = "" ↔ ∀ es ∈ errs, es = [] := by
  rw [main_report_eq, str_concat_eq_empty_iff]
  constructor
  · intro h es hes
    have hmem : ∀ p ∈ List.enumFrom 0 errs, p.2 = ([] : List ValError) := by
      intro p hp
      have := h _ (List.mem_map_of_mem _ hp)
      exact (validation_errors_empty_iff _ _).mp this
    exact (enumFrom_forall_snd (fun es => es = []) 0 errs).mp hmem es hes
  · intro h s hs
    obtain ⟨p, hp, hps⟩ := List.mem_map.mp hs
    have hp2 : p.2 = [] := (enumFrom_forall_snd (fun es => es = []) 0 errs).mpr h p hp
    rw [← hps, hp2]
    rfl

/-! ### Helper lemmas: the schema flattener -/

theorem value_rows_for_key (k : String) (sv : PropSchema) :
    ∀ r ∈ value_rows_for k sv, r.key = k := by
  intro r hr
  unfold value_rows_for at hr
  revert hr
  cases sv.pattern with
  | some pat =>
      intro hr
      simp only [List.mem_singleton] at hr
      rw [hr]
  | none =>
      by_cases hv : hasValuesListKeyword sv
      · simp only [hv, if_true, List.mem_map]
        rintro ⟨e, he, rfl⟩
        rfl
      · simp [hv]

theorem value_rows_for_untruthy (k : String) (sv : PropSchema)
    (h : sv.isTruthy = false) : value_rows_for k sv = [] := by
  have hp : sv.pattern = none := by
    cases hp : sv.pattern with
    | none => rfl
    | some pat => unfold PropSchema.isTruthy at h; rw [hp] at h; simp at h
  have ha : sv.anyOf = none := by
    cases ha : sv.anyOf with
    | none => rfl
    | some l => unfold PropSchema.isTruthy at h; rw [ha] at h; simp at h
  have he : sv.enum = none := by
    cases he : sv.enum with
    | none => rfl
    | some l => unfold PropSchema.isTruthy at h; rw [he] at h; simp at h
  have hv : hasValuesListKeyword sv = false := by
    unfold hasValuesListKeyword
    rw [ha, he]
    rfl
  unfold value_rows_for
  rw [hp, hv]
  rfl

theorem gdv_aux_defs_eq (js : JsonSchema) :
    ∀ props : List (String × PropSchema),
      (gdv_aux js props).1 =
        (props.filter (fun kv => kv.2.isTruthy)).map (fun kv => def_row_for js kv.1 kv.2) := by
  intro props
  induction props with
  | nil => rfl
  | cons kv rest ih =>
      obtain ⟨k, sv⟩ := kv
      cases ht : sv.isTruthy with
      | true => simp [gdv_aux, ht, List.filter_cons, ih]
      | false => simp [gdv_aux, ht, List.filter_cons, ih]

theorem gdv_aux_values_keys (js : JsonSchema) :
    ∀ props : List (String × PropSchema), ∀ r ∈ (gdv_aux js props).2,
      r.key ∈ props.map Prod.fst := by
  intro props
  induction props with
  | nil => intro r hr; simp [gdv_aux] at hr
  | cons kv rest ih =>
      obtain ⟨k, sv⟩ := kv
      intro r hr
      revert hr
      cases ht : sv.isTruthy with
      | false =>
          intro hr
          simp only [gdv_aux, ht, Bool.false_eq_true, if_false] at hr
          exact List.mem_cons_of_mem _ (ih r hr)
      | true =>
          intro hr
          simp only [gdv_aux, ht, if_true] at hr
          rcases List.mem_append.mp hr with hr | hr
          · simp [value_rows_for_key k sv r hr]
          · exact List.mem_cons_of_mem _ (ih r hr)

theorem gdv_aux_values_filter (js : JsonSchema) (k : String) (sv : PropSchema) :
    ∀ props : List (String × PropSchema), (props.map Prod.fst).Nodup →
      (k, sv) ∈ props →
      ((gdv_aux js props).2).filter (fun r => r.key == k) = value_rows_for k sv := by
  intro props
  induction props with
  | nil => intro _ hmem; simp at hmem
  | cons kv rest ih =>
      obtain ⟨k1, sv1⟩ := kv
      intro hnodup hmem
      simp only [List.map_cons, List.nodup_cons] at hnodup
      rcases List.mem_cons.mp hmem with heq | hmem
      · cases heq
        have htail : ∀ r ∈ (gdv_aux js rest).2, (r.key == k) = false := by
          intro r hr
          have hk := gdv_aux_values_keys js rest r hr
          exact beq_eq_false_iff_ne.mpr (fun he => hnodup.1 (he ▸ hk))
        cases ht : sv.isTruthy with
        | true =>
            simp only [gdv_aux, ht, if_true, List.filter_append]
            have h1 : (value_rows_for k sv).filter (fun r => r.key == k) =
                value_rows_for k sv :=
              List.filter_eq_self.mpr (fun r hr => by simp [value_rows_for_key k sv r hr])
            have h2 : ((gdv_aux js rest).2).filter (fun r => r.key == k) = [] :=
              List.filter_eq_nil_iff.mpr (fun r hr => by simp [htail r hr])
            rw [h1, h2, List.append_nil]
        | false =>
            simp only [gdv_aux, ht, Bool.false_eq_true, if_false]
            have h2 : ((gdv_aux js rest).2).filter (fun r => r.key == k) = [] :=
              List.filter_eq_nil_iff.mpr (fun r hr => by simp [htail r hr])
            rw [h2, value_rows_for_untruthy k sv ht]
      · have hkrest : k ∈ rest.map Prod.fst := List.mem_map_of_mem Prod.fst hmem
        have hne : k ≠ k1 := fun he => hnodup.1 (he ▸ hkrest)
        cases ht : sv1.isTruthy with
        | true =>
            simp only [gdv_aux, ht, if_true, List.filter_append]
            have hvr : ∀ r ∈ value_rows_for k1 sv1, (r.key == k) = false := by
              intro r hr
              have hk1 := value_rows_for_key k1 sv1 r hr
              exact beq_eq_false_iff_ne.mpr (fun he => hne (hk1 ▸ he).symm)
            have h1 : (value_rows_for k1 sv1).filter (fun r => r.key == k) = [] :=
              List.filter_eq_nil_iff.mpr (fun r hr => by simp [hvr r hr])
            rw [h1, List.nil_append]
            exact ih hnodup.2 hmem
        | false =>
            simp only [gdv_aux, ht, Bool.false_eq_true, if_false]
            exact ih hnodup.2 hmem

theorem lookup_isSome_of_mem_keys {β : Type} {k : String} {l : List (String × β)}
    (h : k ∈ l.map Prod.fst) : (l.lookup k).isSome := by
  induction l with
  | nil => simp at h
  | cons kv rest ih =>
      obtain ⟨k1, v1⟩ := kv
      by_cases hk : k = k1
      · subst hk
        simp [List.lookup, beq_self_eq_true]
      · have hbeq : (k == k1) = false := beq_eq_false_iff_ne.mpr hk
        simp only [List.map_cons, List.mem_cons] at h
        rcases h with h | h
        · exact absurd h hk
        · simp only [List.lookup, hbeq]
          exact ih h

theorem length_lt_of_keys {out row : List (String × PyVal)}
    (hsub : (out.map Prod.fst).Sublist (row.map Prod.fst)) {k : String}
    (hin : k ∈ row.map Prod.fst) (hout : k ∉ out.map Prod.fst) :
    out.length < row.length := by
  rcases Nat.lt_or_ge out.length row.length with h | h
  · exact h
  · exfalso
    have heq : out.map Prod.fst = row.map Prod.fst :=
      hsub.eq_of_length_le (by simpa [List.length_map] using h)
    exact hout (heq ▸ hin)

theorem str_isnumeric_iff (t : String) :
    str_isnumeric t = true ↔ (t.data ≠ [] ∧ ∀ c ∈ t.data, c.isDigit = true) := by
  unfold str_isnumeric
  simp [List.all_eq_true, List.isEmpty_iff]

theorem map_congr_mem {α β : Type} {f g : α → β} :
    ∀ l : List α, (∀ a ∈ l, f a = g a) → l.map f = l.map g := by
  intro l h
  induction l with
  | nil => rfl
  | cons x xs ih =>
      simp only [List.map_cons]
      rw [h x (List.mem_cons_self _ _), ih (fun a ha => h a (List.mem_cons_of_mem _ ha))]

/-! ### Claims -/

/-- C1: the spec claims that a record key absent from the schema's properties
map is passed through verbatim by both coercion passes, with neither pass
raising an error. In the code, both passes begin each loop iteration with
`schema_val = val_schema["properties"][rec_key]`, which raises KeyError on
such a key before the pass-through condition meant to handle it is ever
evaluated; the functions' own comments promise the pass-through. This theorem
evaluates both passes at a record holding the extra key `extraCol` against a
schema knowing only `sampleId`. -/
theorem C1_extra_key_keyerror :
    convert_from_other [("extraCol", .str "x")] sampleSchema convert_bool_to_string
        = .error "extraCol" ∧
    convert_string_to_other [("extraCol", .str "x")] sampleSchema ["boolean"]
        convert_string_to_bool = .error "extraCol" :=
  ⟨rfl, rfl⟩

/-- C2: every line of the accumulated report is labelled
"Record (first_record + record index): " before the error core, the JSON
starting number is 1 and the tabular starting number is 2, and the spec's
tabular example (header plus two data rows, error in the second data row)
yields the label "Record 3: ". The last conjunct records the part of the
claim that fails: main appends the whole parsed JSON document to
data_dict_list as a single element, so a JSON array of two records becomes
one record, not one record per array element. -/
theorem C2_record_numbering :
    (∀ (first : Nat) (record_errors : List (List ValError)),
        main_report first record_errors =
          str_concat ((labeled_lines first record_errors).map (fun s => s ++ "\n"))) ∧
    first_record_json = 1 ∧ first_record_csv = 2 ∧
    main_report first_record_csv [[], [⟨["properties", "sampleId"], "msg"⟩]]
        = "Record 3: sampleId: msg\n" ∧
    (json_data_dict_list [[("a", PyVal.int 1)], [("b", PyVal.int 2)]]).length = 1 := by
  refine ⟨?_, rfl, rfl, rfl, rfl⟩
  intro first errs
  rw [main_report_eq]
  unfold labeled_lines
  rw [List.map_flatMap, str_concat_flatMap]
  have henum : List.enum errs = List.enumFrom 0 errs := rfl
  rw [henum]
  apply congrArg
  apply map_congr_mem
  intro q hq
  rw [validation_errors_eq, List.map_map]
  apply congrArg
  apply map_congr_mem
  intro e he
  simp only [Function.comp]
  rw [render_eq_core]

/-- C3: per property of a dereferenced schema, get_definitions_values emits
value rows by priority: a declared pattern yields exactly one row whose value
is the pattern string, even when a value-list keyword is also declared;
otherwise a declared value list yields exactly one row per entry; otherwise no
rows. The property keys are assumed distinct (they come from a Python dict)
and at most one value-list keyword is assumed declared (the source's pick is
unspecified otherwise). -/
theorem C3_value_rows_priority (js : JsonSchema) (k : String) (sv : PropSchema)
    (hnodup : (js.properties.map Prod.fst).Nodup)
    (hmem : (k, sv) ∈ js.properties)
    (hone : ¬(sv.anyOf.isSome = true ∧ sv.enum.isSome = true)) :
    (∀ pat, sv.pattern = some pat →
        ((get_definitions_values js).2).filter (fun r => r.key == k) =
          [{ key := k, value := some (.str pat) }]) ∧
    (sv.pattern = none → hasValuesListKeyword sv = true →
        (((get_definitions_values js).2).filter (fun r => r.key == k)).length =
          (selectValueList sv).length) ∧
    (sv.pattern = none → hasValuesListKeyword sv = false →
        ((get_definitions_values js).2).filter (fun r => r.key == k) = []) := by
  have hfilter : ((get_definitions_values js).2).filter (fun r => r.key == k) =
      value_rows_for k sv :=
    gdv_aux_values_filter js k sv js.properties hnodup hmem
  refine ⟨?_, ?_, ?_⟩
  · intro pat hpat
    rw [hfilter]
    unfold value_rows_for
    rw [hpat]
  · intro hpat hv
    rw [hfilter]
    unfold value_rows_for
    rw [hpat, hv]
    simp
  · intro hpat hv
    rw [hfilter]
    unfold value_rows_for
    rw [hpat, hv]
    rfl

/-- C3 witness: in statusConstSchema the property `status` declares no pattern
and a two-entry anyOf list, so exactly two value rows carry its key. -/
theorem C3_witness :
    (((get_definitions_values statusConstSchema).2).filter
        (fun r => r.key == "status")).length = 2 :=
  (C3_value_rows_priority statusConstSchema "status" statusConstProp
    (by decide) (by decide) (by decide)).2.1 rfl rfl

/-- C4: for a key in the schema whose property declares exactly one value-list
keyword with a nonempty list, and a non-string record value, convert_from_other
stores func_to_run of the value exactly when some list entry has a string
`const` (the first such entry stops the loop; every entry yields the same
stored value, so only existence matters) and stores the original value
otherwise; and the conversion functions of its call sites turn a Boolean into
its lowercase string form and a numeric into its decimal text. -/
theorem C4_narrowing_gate (js : JsonSchema) (func : PyVal → PyVal)
    (row : List (String × PyVal)) (k : String) (v : PyVal) (sv : PropSchema)
    (es : List VEntry)
    (hall : ∀ kv ∈ row, (props_lookup js kv.1).isSome)
    (hnodup : (row.map Prod.fst).Nodup)
    (hlk : row.lookup k = some v)
    (hv : v.isStr = false)
    (hsv : props_lookup js k = some sv)
    (hes : (sv.anyOf = some es ∧ sv.enum = none) ∨ (sv.anyOf = none ∧ sv.enum = some es))
    (hne : es ≠ []) :
    (∃ out, convert_from_other row js func = .ok out ∧
        out.lookup k = some (if es.any const_is_string then func v else v)) ∧
    (∀ b, convert_bool_to_string (.bool b) = .str (if b then "true" else "false")) ∧
    (∀ n : Int, convert_numeric_to_string (.int n) = .str (toString n)) ∧
    (∀ lit, convert_numeric_to_string (.float lit) = .str lit) := by
  refine ⟨?_, fun b => rfl, fun n => rfl, fun lit => rfl⟩
  obtain ⟨out, hok, hlook, _⟩ := convert_from_other_lookup js func hall hnodup hlk hsv
  refine ⟨out, hok, ?_⟩
  rw [hlook]
  have hvlk : hasValuesListKeyword sv = true := by
    unfold hasValuesListKeyword
    rcases hes with ⟨ha, _⟩ | ⟨_, he⟩
    · rw [ha]; rfl
    · rw [he]; simp
  have hsel : selectValueList sv = es := by
    unfold selectValueList
    rcases hes with ⟨ha, he⟩ | ⟨ha, he⟩
    · rw [ha]
    · rw [ha, he]
      rfl
  unfold convert_value_from_other
  rw [hsv]
  simp only [Option.isSome_some, Bool.not_true, hv, Bool.not_false, hvlk,
    Bool.and_true, Bool.and_false, Bool.false_or, Bool.or_false, if_false]
  rw [hsel, coerce_loop_eq]
  cases es with
  | nil => exact absurd rfl hne
  | cons e es2 => rfl

/-- C4 witness: narrowing the Boolean True under statusConstSchema (whose
value list has the string constant "Unknown") stores the string "true". -/
theorem C4_witness :
    ∃ out, convert_from_other [("status", PyVal.bool true)] statusConstSchema
        convert_bool_to_string = .ok out ∧
      out.lookup "status" = some (PyVal.str "true") :=
  (C4_narrowing_gate statusConstSchema convert_bool_to_string
    [("status", PyVal.bool true)] "status" (PyVal.bool true) statusConstProp
    statusConstEntries (by decide) (by decide) rfl rfl rfl
    (Or.inl ⟨rfl, rfl⟩) (by decide)).1

/-- C5: narrowing is a no-op on string values and widening is a no-op on
non-string values: whenever the record value at a key is a string,
convert_from_other keeps the pair unchanged, and whenever it is not a string,
convert_string_to_other keeps the pair unchanged (assuming every record key is
known to the schema, so that neither pass raises KeyError). -/
theorem C5_coercion_noop (js : JsonSchema) (func func2 : PyVal → PyVal)
    (type_list : List String) (row1 row2 : List (String × PyVal))
    (hall1 : ∀ kv ∈ row1, (props_lookup js kv.1).isSome)
    (hnodup1 : (row1.map Prod.fst).Nodup)
    (hall2 : ∀ kv ∈ row2, (props_lookup js kv.1).isSome)
    (hnodup2 : (row2.map Prod.fst).Nodup) :
    (∀ k s, row1.lookup k = some (.str s) →
        ∃ out, convert_from_other row1 js func = .ok out ∧
          out.lookup k = some (.str s)) ∧
    (∀ k v, row2.lookup k = some v → v.isStr = false →
        ∃ out, convert_string_to_other row2 js type_list func2 = .ok out ∧
          out.lookup k = some v) := by
  constructor
  · intro k s hlk
    have hmem := mem_of_lookup_eq_some hlk
    obtain ⟨sv, hsv⟩ := Option.isSome_iff_exists.mp (hall1 _ hmem)
    obtain ⟨out, hok, hlook, _⟩ := convert_from_other_lookup js func hall1 hnodup1 hlk hsv
    refine ⟨out, hok, ?_⟩
    rw [hlook]
    unfold convert_value_from_other
    simp [PyVal.isStr]
  · intro k v hlk hv
    have hmem := mem_of_lookup_eq_some hlk
    obtain ⟨sv, hsv⟩ := Option.isSome_iff_exists.mp (hall2 _ hmem)
    obtain ⟨out, hok, hlook, _⟩ :=
      convert_string_to_other_lookup js type_list func2 hall2 hnodup2 hlk hsv
    refine ⟨out, hok, ?_⟩
    rw [hlook]
    unfold convert_value_string_to_other
    simp [hv]

/-- C5 witness: a string survives narrowing and an integer survives widening
under sampleSchema. -/
theorem C5_witness :
    (∃ out, convert_from_other [("sampleId", PyVal.str "abc")] sampleSchema
        convert_bool_to_string = .ok out ∧
      out.lookup "sampleId" = some (PyVal.str "abc")) ∧
    (∃ out, convert_string_to_other [("sampleId", PyVal.int 3)] sampleSchema
        ["integer", "number"] convert_string_to_numeric = .ok out ∧
      out.lookup "sampleId" = some (PyVal.int 3)) :=
  ⟨(C5_coercion_noop sampleSchema convert_bool_to_string convert_string_to_numeric
      ["integer", "number"] [("sampleId", PyVal.str "abc")] [("sampleId", PyVal.int 3)]
      (by decide) (by decide) (by decide) (by decide)).1 "sampleId" "abc" rfl,
   (C5_coercion_noop sampleSchema convert_bool_to_string convert_string_to_numeric
      ["integer", "number"] [("sampleId", PyVal.str "abc")] [("sampleId", PyVal.int 3)]
      (by decide) (by decide) (by decide) (by decide)).2 "sampleId" (PyVal.int 3) rfl rfl⟩

/-- C6 counterexample: for the property `status` whose value list holds the
string constant "Unknown" and the Boolean constant True — both constants, no
entry declaring a `type` key — narrowing True does yield "true", but widening
"true" with target type set {"boolean"} leaves the string unchanged rather
than producing True, because the widening gate looks for an entry whose
`type` is in the target set and no entry declares one. -/
theorem C6_roundtrip_cex :
    convert_from_other [("status", PyVal.bool true)] statusConstSchema
        convert_bool_to_string = .ok [("status", PyVal.str "true")] ∧
    convert_string_to_other [("status", PyVal.str "true")] statusConstSchema ["boolean"]
        convert_string_to_bool = .ok [("status", PyVal.str "true")] ∧
    convert_string_to_other [("status", PyVal.str "true")] statusConstSchema ["boolean"]
        convert_string_to_bool ≠ .ok [("status", PyVal.bool true)] :=
  ⟨rfl, rfl, by
    rw [show convert_string_to_other [("status", PyVal.str "true")] statusConstSchema
        ["boolean"] convert_string_to_bool
        = Except.ok [("status", PyVal.str "true")] from rfl]
    simp⟩

/-- C6 amended: for a property declaring exactly one value-list keyword, if
some entry's `const` is a string then narrowing True yields "true", and if
moreover some entry declares type "boolean" then widening "true" with target
type set {"boolean"} yields True. -/
theorem C6_roundtrip_amended (js : JsonSchema) (k : String) (sv : PropSchema)
    (es : List VEntry)
    (hsv : props_lookup js k = some sv)
    (hes : (sv.anyOf = some es ∧ sv.enum = none) ∨ (sv.anyOf = none ∧ sv.enum = some es))
    (hstr : es.any const_is_string = true)
    (hbool : es.any (fun e => e.type == some "boolean") = true) :
    convert_from_other [(k, PyVal.bool true)] js convert_bool_to_string
        = .ok [(k, PyVal.str "true")] ∧
    convert_string_to_other [(k, PyVal.str "true")] js ["boolean"]
        convert_string_to_bool = .ok [(k, PyVal.bool true)] := by
  have hvlk : hasValuesListKeyword sv = true := by
    unfold hasValuesListKeyword
    rcases hes with ⟨ha, _⟩ | ⟨_, he⟩
    · rw [ha]
      rfl
    · rw [he]
      simp
  have hsel : selectValueList sv = es := by
    unfold selectValueList
    rcases hes with ⟨ha, he⟩ | ⟨ha, he⟩
    · rw [ha]
    · rw [ha, he]
      rfl
  have hne : es ≠ [] := by
    intro h
    rw [h] at hstr
    simp at hstr
  have hq : es.any (type_in_list ["boolean"]) = true := by
    rw [List.any_eq_true] at hbool ⊢
    obtain ⟨e, he, hb⟩ := hbool
    refine ⟨e, he, ?_⟩
    unfold type_in_list
    rw [eq_of_beq hb]
    decide
  have hcv1 : convert_value_from_other js convert_bool_to_string k sv (PyVal.bool true)
      = some (PyVal.str "true") := by
    unfold convert_value_from_other
    rw [hsv]
    simp only [Option.isSome_some, Bool.not_true, PyVal.isStr, Bool.not_false, hvlk,
      Bool.and_false, Bool.false_or, Bool.or_false, Bool.false_eq_true, if_false]
    rw [hsel, coerce_loop_eq]
    cases es with
    | nil => exact absurd rfl hne
    | cons e es2 => simp [hstr, convert_bool_to_string]
  have hcb : convert_string_to_bool (PyVal.str "true") = PyVal.bool true := rfl
  have hcv2 : convert_value_string_to_other js ["boolean"] convert_string_to_bool k sv
      (PyVal.str "true") = some (PyVal.bool true) := by
    unfold convert_value_string_to_other
    rw [hsv]
    simp only [Option.isSome_some, Bool.not_true, PyVal.isStr, Bool.not_false, hvlk,
      Bool.true_and, Bool.and_false, Bool.false_or, Bool.or_false, Bool.false_eq_true,
      if_false]
    rw [hsel, coerce_loop_eq]
    cases es with
    | nil => exact absurd rfl hne
    | cons e es2 => simp [hq, hcb]
  constructor
  · simp only [convert_from_other, hsv, hcv1]
  · simp only [convert_string_to_other, hsv, hcv2]

/-- C6 witness: the amended round trip holds for statusTypedSchema, whose
Boolean entry declares its type. -/
theorem C6_witness :
    convert_from_other [("status", PyVal.bool true)] statusTypedSchema
        convert_bool_to_string = .ok [("status", PyVal.str "true")] ∧
    convert_string_to_other [("status", PyVal.str "true")] statusTypedSchema ["boolean"]
        convert_string_to_bool = .ok [("status", PyVal.bool true)] :=
  C6_roundtrip_amended statusTypedSchema "status" statusTypedProp statusTypedEntries rfl
    (Or.inl ⟨rfl, rfl⟩) (by decide) (by decide)

/-- C8 counterexample: a property whose schema node is the empty dict is
Python-falsy, so get_definitions_values emits no definition row for it, not
exactly one per property as claimed. -/
theorem C8_def_rows_cex :
    (get_definitions_values emptyNodeSchema).1 = [] ∧
    emptyNodeSchema.properties.length = 1 :=
  ⟨rfl, rfl⟩

/-- C8 amended: get_definitions_values emits exactly one definition row per
property whose schema node is nonempty (Python-truthy), skipping empty nodes;
row keys are unique (the schema's property keys being distinct, as a dict
guarantees); and required is true exactly when the schema's top-level required
array exists and contains the key. -/
theorem C8_def_rows_amended (js : JsonSchema)
    (hnodup : (js.properties.map Prod.fst).Nodup) :
    ((get_definitions_values js).1).map DefRow.key =
      (js.properties.filter (fun kv => kv.2.isTruthy)).map Prod.fst ∧
    (((get_definitions_values js).1).map DefRow.key).Nodup ∧
    (∀ k sv, (k, sv) ∈ js.properties → sv.isTruthy = true →
      (((get_definitions_values js).1).filter (fun r => r.key == k)).length = 1) ∧
    (∀ r ∈ (get_definitions_values js).1,
      (r.required = true ↔ ∃ req, js.required = some req ∧ r.key ∈ req)) := by
  have hdefs : (get_definitions_values js).1 =
      (js.properties.filter (fun kv => kv.2.isTruthy)).map
        (fun kv => def_row_for js kv.1 kv.2) := gdv_aux_defs_eq js js.properties
  have hkeys : ((get_definitions_values js).1).map DefRow.key =
      (js.properties.filter (fun kv => kv.2.isTruthy)).map Prod.fst := by
    rw [hdefs, List.map_map]
    rfl
  have hnod : (((get_definitions_values js).1).map DefRow.key).Nodup := by
    rw [hkeys]
    exact List.Nodup.sublist ((List.filter_sublist _).map Prod.fst) hnodup
  refine ⟨hkeys, hnod, ?_, ?_⟩
  · intro k sv hmem ht
    have hin : k ∈ ((get_definitions_values js).1).map DefRow.key := by
      rw [hkeys]
      exact List.mem_map_of_mem Prod.fst (List.mem_filter.mpr ⟨hmem, ht⟩)
    have hcount : List.count k (((get_definitions_values js).1).map DefRow.key) = 1 :=
      List.count_eq_one_of_mem hnod hin
    have h2 : List.count k (((get_definitions_values js).1).map DefRow.key)
        = List.countP (fun r => (r.key == k)) ((get_definitions_values js).1) := by
      unfold List.count
      rw [List.countP_map]
      rfl
    rw [← List.countP_eq_length_filter, ← h2]
    exact hcount
  · intro r hr
    rw [hdefs] at hr
    obtain ⟨kv, hkv, rfl⟩ := List.mem_map.mp hr
    show required_flag js kv.1 = true ↔ _
    unfold required_flag
    cases hreq : js.required with
    | none => simp
    | some req => simp [def_row_for]

/-- C8 witness: sampleSchema's sole (truthy) property yields exactly one
definition row. -/
theorem C8_witness :
    (((get_definitions_values sampleSchema).1).filter
        (fun r => r.key == "sampleId")).length = 1 :=
  (C8_def_rows_amended sampleSchema (by decide)).2.2.1 "sampleId" sampleProp
    (by decide) (by decide)

/-- C7: when convert_string_to_other converts a string record value — the key
is in the schema, exactly one value-list keyword is declared, and some entry's
declared type is in the caller's type set (the first such entry stops the
loop; every entry yields the same stored value, so only existence matters) —
the stored value is func_to_run of the string; and the conversion functions of
its call sites follow the claimed sniffing rules: an all-digits string becomes
the integer it denotes, a string that is all digits after removing one dot
becomes a float, a case-insensitive TRUE/FALSE becomes a Boolean, and any
other string is returned unchanged. -/
theorem C7_widening_rules (js : JsonSchema) (type_list : List String)
    (func : PyVal → PyVal) (row : List (String × PyVal)) (k : String) (s : String)
    (sv : PropSchema) (es : List VEntry)
    (hall : ∀ kv ∈ row, (props_lookup js kv.1).isSome)
    (hnodup : (row.map Prod.fst).Nodup)
    (hlk : row.lookup k = some (.str s))
    (hsv : props_lookup js k = some sv)
    (hes : (sv.anyOf = some es ∧ sv.enum = none) ∨ (sv.anyOf = none ∧ sv.enum = some es))
    (hq : es.any (type_in_list type_list) = true) :
    (∃ out, convert_string_to_other row js type_list func = .ok out ∧
        out.lookup k = some (func (.str s))) ∧
    (∀ t : String, t.data ≠ [] → (∀ c ∈ t.data, c.isDigit = true) →
        convert_string_to_numeric (.str t) = .int (parse_digits t)) ∧
    (∀ t : String, str_isnumeric t = false →
        remove_first_dot t.data ≠ [] →
        (∀ c ∈ remove_first_dot t.data, c.isDigit = true) →
        convert_string_to_numeric (.str t) = .float t) ∧
    (∀ t : String, str_isnumeric t = false →
        str_isnumeric ⟨remove_first_dot t.data⟩ = false →
        convert_string_to_numeric (.str t) = .str t) ∧
    (∀ t : String, py_upper t = "TRUE" → convert_string_to_bool (.str t) = .bool true) ∧
    (∀ t : String, py_upper t = "FALSE" → convert_string_to_bool (.str t) = .bool false) ∧
    (∀ t : String, py_upper t ≠ "TRUE" → py_upper t ≠ "FALSE" →
        convert_string_to_bool (.str t) = .str t) := by
  refine ⟨?_, ?_, ?_, ?_, ?_, ?_, ?_⟩
  · obtain ⟨out, hok, hlook, _⟩ :=
      convert_string_to_other_lookup js type_list func hall hnodup hlk hsv
    have hvlk : hasValuesListKeyword sv = true := by
      unfold hasValuesListKeyword
      rcases hes with ⟨ha, _⟩ | ⟨_, he⟩
      · rw [ha]
        rfl
      · rw [he]
        simp
    have hsel : selectValueList sv = es := by
      unfold selectValueList
      rcases hes with ⟨ha, he⟩ | ⟨ha, he⟩
      · rw [ha]
      · rw [ha, he]
        rfl
    have hne : es ≠ [] := by
      intro h
      rw [h] at hq
      simp at hq
    refine ⟨out, hok, ?_⟩
    rw [hlook]
    unfold convert_value_string_to_other
    rw [hsv]
    simp only [Option.isSome_some, Bool.not_true, PyVal.isStr, Bool.not_false, hvlk,
      Bool.true_and, Bool.and_false, Bool.false_or, Bool.or_false, Bool.false_eq_true,
      if_false]
    rw [hsel, coerce_loop_eq]
    cases es with
    | nil => exact absurd rfl hne
    | cons e es2 => simp [hq]
  · intro t h1 h2
    simp only [convert_string_to_numeric]
    rw [if_pos ((str_isnumeric_iff t).mpr ⟨h1, h2⟩)]
  · intro t hb h1 h2
    simp only [convert_string_to_numeric]
    rw [hb]
    simp only [Bool.false_eq_true, if_false]
    rw [if_pos ((str_isnumeric_iff _).mpr ⟨h1, h2⟩)]
  · intro t hb1 hb2
    simp only [convert_string_to_numeric]
    rw [hb1, hb2]
    simp
  · intro t h
    simp only [convert_string_to_bool]
    rw [if_pos h]
  · intro t h
    have h2 : py_upper t ≠ "TRUE" := by
      rw [h]
      decide
    simp only [convert_string_to_bool]
    rw [if_neg h2, if_pos h]
  · intro t h1 h2
    simp only [convert_string_to_bool]
    rw [if_neg h1, if_neg h2]

/-- C7 witness: widening the string "12" under countSchema (whose value list
offers an integer-typed alternative) stores the integer 12. -/
theorem C7_witness :
    ∃ out, convert_string_to_other [("count", PyVal.str "12")] countSchema
        ["integer", "number"] convert_string_to_numeric = .ok out ∧
      out.lookup "count" = some (PyVal.int 12) :=
  (C7_widening_rules countSchema ["integer", "number"] convert_string_to_numeric
    [("count", PyVal.str "12")] "count" "12" countProp countEntries
    (by decide) (by decide) rfl rfl (Or.inl ⟨rfl, rfl⟩) (by decide)).1

/-- C9: validation_errors renders one line per validator error, prepended with
the caller's label; an error whose relative schema path starts with
"properties" is rendered as label, property name (the path's second element),
": " and the message, any other error as label and message; and the report
accumulated over all records is empty exactly when no record produced any
error. -/
theorem C9_error_report (es : List ValError) (p : String) (first : Nat)
    (record_errors : List (List ValError)) :
    (validation_errors es [p] = str_concat (es.map (render_validation_error p))) ∧
    (∀ e ∈ es, ∀ name rest, e.relative_schema_path = "properties" :: name :: rest →
      render_validation_error p e = p ++ name ++ ": " ++ e.message ++ "\n") ∧
    (∀ e ∈ es, e.relative_schema_path.head? ≠ some "properties" →
      render_validation_error p e = p ++ e.message ++ "\n") ∧
    (main_report first record_errors = "" ↔ ∀ l ∈ record_errors, l = []) := by
  refine ⟨validation_errors_eq es p, ?_, ?_, main_report_empty_iff first record_errors⟩
  · intro e he name rest hpath
    unfold render_validation_error
    rw [hpath]
    simp
  · intro e he hne
    unfold render_validation_error
    rw [if_neg hne]

/-- C9 witness: a property-level error, a relational error and an empty
two-record report, rendered concretely. -/
theorem C9_witness :
    render_validation_error "Record 2: " ⟨["properties", "sampleId"], "m1"⟩
        = "Record 2: " ++ "sampleId" ++ ": " ++ "m1" ++ "\n" ∧
    render_validation_error "Record 2: " ⟨["required"], "m2"⟩
        = "Record 2: " ++ "m2" ++ "\n" ∧
    main_report 1 [[], []] = "" :=
  ⟨(C9_error_report [⟨["properties", "sampleId"], "m1"⟩] "Record 2: " 1 [[], []]).2.1
      _ (by simp) "sampleId" [] rfl,
   (C9_error_report [⟨["required"], "m2"⟩] "Record 2: " 1 [[], []]).2.2.1
      _ (by simp) (by decide),
   ((C9_error_report [] "" 1 [[], []]).2.2.2).mpr (by simp)⟩

/-- C10: when a record value is eligible for coercion (non-string for the
narrowing pass, string for the widening pass), its key is in the schema, and
the property's sole value-list keyword maps to an empty list, the loop body
never assigns the key, so the key is dropped from the returned row and the
output has strictly fewer keys than the input. -/
theorem C10_empty_list_drops_key (js : JsonSchema) (func func2 : PyVal → PyVal)
    (type_list : List String) (row1 row2 : List (String × PyVal)) (k1 k2 : String)
    (v1 v2 : PyVal) (sv1 sv2 : PropSchema)
    (hall1 : ∀ kv ∈ row1, (props_lookup js kv.1).isSome)
    (hnodup1 : (row1.map Prod.fst).Nodup)
    (hlk1 : row1.lookup k1 = some v1)
    (hv1 : v1.isStr = false)
    (hsv1 : props_lookup js k1 = some sv1)
    (hes1 : (sv1.anyOf = some [] ∧ sv1.enum = none) ∨
      (sv1.anyOf = none ∧ sv1.enum = some []))
    (hall2 : ∀ kv ∈ row2, (props_lookup js kv.1).isSome)
    (hnodup2 : (row2.map Prod.fst).Nodup)
    (hlk2 : row2.lookup k2 = some v2)
    (hv2 : v2.isStr = true)
    (hsv2 : props_lookup js k2 = some sv2)
    (hes2 : (sv2.anyOf = some [] ∧ sv2.enum = none) ∨
      (sv2.anyOf = none ∧ sv2.enum = some [])) :
    (∃ out, convert_from_other row1 js func = .ok out ∧ out.lookup k1 = none ∧
        out.length < row1.length) ∧
    (∃ out, convert_string_to_other row2 js type_list func2 = .ok out ∧
        out.lookup k2 = none ∧ out.length < row2.length) := by
  constructor
  · obtain ⟨out, hok, hlook, hsub⟩ :=
      convert_from_other_lookup js func hall1 hnodup1 hlk1 hsv1
    have hvlk : hasValuesListKeyword sv1 = true := by
      unfold hasValuesListKeyword
      rcases hes1 with ⟨ha, _⟩ | ⟨_, he⟩
      · rw [ha]
        rfl
      · rw [he]
        simp
    have hsel : selectValueList sv1 = [] := by
      unfold selectValueList
      rcases hes1 with ⟨ha, he⟩ | ⟨ha, he⟩
      · rw [ha]
      · rw [ha, he]
        rfl
    have hnone : out.lookup k1 = none := by
      rw [hlook]
      unfold convert_value_from_other
      rw [hsv1]
      simp only [Option.isSome_some, Bool.not_true, hv1, Bool.not_false, hvlk,
        Bool.and_true, Bool.and_false, Bool.false_or, Bool.or_false, if_false]
      rw [hsel]
      rfl
    refine ⟨out, hok, hnone, ?_⟩
    refine length_lt_of_keys hsub (mem_keys_of_lookup_eq_some hlk1) ?_
    intro hmem
    have hs := lookup_isSome_of_mem_keys hmem
    rw [hnone] at hs
    simp at hs
  · obtain ⟨out, hok, hlook, hsub⟩ :=
      convert_string_to_other_lookup js type_list func2 hall2 hnodup2 hlk2 hsv2
    have hvlk : hasValuesListKeyword sv2 = true := by
      unfold hasValuesListKeyword
      rcases hes2 with ⟨ha, _⟩ | ⟨_, he⟩
      · rw [ha]
        rfl
      · rw [he]
        simp
    have hsel : selectValueList sv2 = [] := by
      unfold selectValueList
      rcases hes2 with ⟨ha, he⟩ | ⟨ha, he⟩
      · rw [ha]
      · rw [ha, he]
        rfl
    have hnone : out.lookup k2 = none := by
      rw [hlook]
      unfold convert_value_string_to_other
      rw [hsv2]
      simp only [Option.isSome_some, Bool.not_true, hv2, Bool.not_false, hvlk,
        Bool.true_and, Bool.and_false, Bool.false_or, Bool.or_false, Bool.false_eq_true,
        if_false]
      rw [hsel]
      rfl
    refine ⟨out, hok, hnone, ?_⟩
    refine length_lt_of_keys hsub (mem_keys_of_lookup_eq_some hlk2) ?_
    intro hmem
    have hs := lookup_isSome_of_mem_keys hmem
    rw [hnone] at hs
    simp at hs

/-- C10 witness: under emptyListSchema (property `tag` with an empty enum
list), both an integer and a string value of `tag` are dropped. -/
theorem C10_witness :
    (∃ out, convert_from_other [("tag", PyVal.int 5)] emptyListSchema
        convert_bool_to_string = .ok out ∧ out.lookup "tag" = none ∧
        out.length < ([("tag", PyVal.int 5)] : List (String × PyVal)).length) ∧
    (∃ out, convert_string_to_other [("tag", PyVal.str "x")] emptyListSchema ["boolean"]
        convert_string_to_bool = .ok out ∧ out.lookup "tag" = none ∧
        out.length < ([("tag", PyVal.str "x")] : List (String × PyVal)).length) :=
  C10_empty_list_drops_key emptyListSchema convert_bool_to_string convert_string_to_bool
    ["boolean"] [("tag", PyVal.int 5)] [("tag", PyVal.str "x")] "tag" "tag"
    (PyVal.int 5) (PyVal.str "x") emptyListProp emptyListProp
    (by decide) (by decide) rfl rfl rfl (Or.inr ⟨rfl, rfl⟩)
    (by decide) (by decide) rfl rfl rfl (Or.inr ⟨rfl, rfl⟩)

end DccJson
